import Mathlib

/-!
Shallow embedding of the Videoflix content helpers
(`content/api/utils.py` and `content/api/serializers.py`).

Strings are modelled as `List Char`.  The filesystem is modelled as the
list of paths that exist on disk (`os.path.exists p` becomes
`fs.contains p`).  The external encoder process is modelled by its exit
code, passed as an explicit argument to the functions that spawn it
(`subprocess.run(command, check=True)` raises `CalledProcessError` on a
non-zero exit).
-/

/-- Strings of the embedding: a Python `str` as its list of characters. -/
abbrev Str := List Char

/-- Python `posixpath.join(a, b)`: if `b` is absolute it wins; otherwise
`b` is appended to `a`, inserting a separator unless `a` is empty or
already ends with one. -/
def pathJoin (a b : Str) : Str :=
  if b.head? = some '/' then b
  else if a = [] ∨ a.getLast? = some '/' then a ++ b
  else a ++ '/' :: b

/-- Python `posixpath.dirname(p)`: everything up to the last separator;
the result is stripped of trailing separators unless it consists only of
separators. -/
def dirname (p : Str) : Str :=
  let head := (p.reverse.dropWhile (fun c => !(c == '/'))).reverse
  if head = [] then head
  else if head.all (fun c => c == '/') then head
  else (head.reverse.dropWhile (fun c => c == '/')).reverse

/-- A Django `FieldFile` as the resolver sees it: the stored `name`
(Python truthiness of the field is truthiness of `name`) and the
storage `path`. -/
structure FieldFile where
  name : Str
  path : Str
deriving DecidableEq

/-- Outcome of reading `.url` on a file field: either the URL string, or
one of the exceptions (`ValueError`/`OSError`/`AttributeError`) that a
missing underlying file raises. -/
inductive UrlAccess where
  | ok (url : Str)
  | raisesMissing
deriving DecidableEq

/-- The `thumbnail` file field of a content record: stored `name` plus
the behaviour of its `.url` accessor. -/
structure ThumbField where
  name : Str
  access : UrlAccess
deriving DecidableEq

/-- The content record (`Video` model) restricted to the attributes the
embedded code reads. -/
structure Video where
  id : Nat
  title : Str
  thumbnail : ThumbField
  hls_480p_manifest : FieldFile
  hls_720p_manifest : FieldFile
  hls_1080p_manifest : FieldFile
deriving DecidableEq

/-- `utils.get_hls_manifest_by_resolution`: the three-entry dict lookup
`manifest_map.get(resolution)`; `none` is Python `None` for an
unrecognized key. -/
def get_hls_manifest_by_resolution (video : Video) (resolution : Str) :
    Option FieldFile :=
  if resolution = ("480p".data) then some video.hls_480p_manifest
  else if resolution = ("720p".data) then some video.hls_720p_manifest
  else if resolution = ("1080p".data) then some video.hls_1080p_manifest
  else none

/-- Python truthiness of the value returned by the manifest lookup:
`None` is falsy, and a `FieldFile` is falsy exactly when its `name` is
empty. -/
def pyTruthy : Option FieldFile → Bool
  | none => false
  | some m => !m.name.isEmpty

/-- `utils.get_hls_segment_path`: look up the manifest, bail out with
`None` when it is falsy (`if not manifest`), otherwise join the
manifest's directory with the segment file name and return the join only
when that exact path exists in the filesystem `fs`. -/
def get_hls_segment_path (fs : List Str) (video : Video)
    (resolution segment_filename : Str) : Option Str :=
  match get_hls_manifest_by_resolution video resolution with
  | none => none
  | some manifest =>
    if manifest.name.isEmpty then none
    else
      let manifest_dir := dirname manifest.path
      let segment_path := pathJoin manifest_dir segment_filename
      if fs.contains segment_path then some segment_path else none

/-- A fixed 720p manifest file field used for concrete witnesses. -/
def mEx : FieldFile :=
  { name := "videos/1/720p/index.m3u8".data
    path := "/media/v1/720p/index.m3u8".data }

/-- An unset file field (Python-falsy). -/
def emptyField : FieldFile := { name := [], path := [] }

/-- An unset thumbnail field. -/
def emptyThumb : ThumbField := { name := [], access := UrlAccess.raisesMissing }

/-- A concrete content record with only the 720p manifest populated. -/
def vEx : Video :=
  { id := 1
    title := "My Great Video!".data
    thumbnail := emptyThumb
    hls_480p_manifest := emptyField
    hls_720p_manifest := mEx
    hls_1080p_manifest := emptyField }

/-- C2: for each of the tiers 480p/720p/1080p the manifest lookup
returns exactly the record's corresponding manifest field, and for every
other string it returns `None`. -/
theorem c2_manifest_lookup (v : Video) :
    get_hls_manifest_by_resolution v ("480p".data) = some v.hls_480p_manifest ∧
    get_hls_manifest_by_resolution v ("720p".data) = some v.hls_720p_manifest ∧
    get_hls_manifest_by_resolution v ("1080p".data) = some v.hls_1080p_manifest ∧
    (∀ r : Str, r ≠ "480p".data → r ≠ "720p".data → r ≠ "1080p".data →
      get_hls_manifest_by_resolution v r = none) := by
  refine ⟨rfl, rfl, rfl, ?_⟩
  intro r h1 h2 h3
  simp [get_hls_manifest_by_resolution, h1, h2, h3]

/-- Witness for C2: the unrecognized tier hypothesis is satisfiable,
e.g. by the string `360p`. -/
theorem c2_manifest_lookup_witness :
    get_hls_manifest_by_resolution vEx ("360p".data) = none :=
  (c2_manifest_lookup vEx).2.2.2 ("360p".data) (by decide) (by decide) (by decide)

/-- C3: when the tier has a (truthy) manifest, the segment resolver
returns the join of the manifest's directory with the segment file name
iff a file exists at exactly that path, and returns `None` whenever the
file is absent — in particular after the file is deleted. -/
theorem c3_segment_exists_iff (fs : List Str) (v : Video) (r f : Str)
    (m : FieldFile) (hm : get_hls_manifest_by_resolution v r = some m)
    (ht : m.name ≠ []) :
    (get_hls_segment_path fs v r f = some (pathJoin (dirname m.path) f)
      ↔ fs.contains (pathJoin (dirname m.path) f) = true) ∧
    (fs.contains (pathJoin (dirname m.path) f) = false →
      get_hls_segment_path fs v r f = none) := by
  unfold get_hls_segment_path
  rw [hm]
  have hne : m.name.isEmpty = false := by
    cases hn : m.name with
    | nil => exact absurd hn ht
    | cons a l => simp [List.isEmpty]
  simp only [hne, Bool.false_eq_true, if_false]
  cases hc : fs.contains (pathJoin (dirname m.path) f) <;> simp [hc]

/-- Witness for C3: the spec's end-to-end scenario — a record whose 720p
manifest is at `/media/v1/720p/index.m3u8` and a filesystem containing
`/media/v1/720p/003.ts`. -/
theorem c3_segment_exists_iff_witness :
    (get_hls_segment_path ["/media/v1/720p/003.ts".data] vEx ("720p".data)
        ("003.ts".data)
      = some (pathJoin (dirname mEx.path) ("003.ts".data))
      ↔ List.contains ["/media/v1/720p/003.ts".data]
          (pathJoin (dirname mEx.path) ("003.ts".data)) = true) ∧
    (List.contains ["/media/v1/720p/003.ts".data]
        (pathJoin (dirname mEx.path) ("003.ts".data)) = false →
      get_hls_segment_path ["/media/v1/720p/003.ts".data] vEx ("720p".data)
        ("003.ts".data) = none) :=
  c3_segment_exists_iff ["/media/v1/720p/003.ts".data] vEx ("720p".data)
    ("003.ts".data) mEx (by decide) (by decide)

/-- C4: whenever the manifest lookup yields a Python-falsy result
(`None` or an unset field), the segment resolver returns `None` for
every segment file name; the miss is an empty result, not an error. -/
theorem c4_miss_implies_empty (fs : List Str) (v : Video) (r f : Str)
    (h : pyTruthy (get_hls_manifest_by_resolution v r) = false) :
    get_hls_segment_path fs v r f = none := by
  unfold get_hls_segment_path
  cases hm : get_hls_manifest_by_resolution v r with
  | none => rfl
  | some m =>
    rw [hm] at h
    unfold pyTruthy at h
    simp only [Bool.not_eq_false'] at h
    simp [h]

/-- Witness for C4: `vEx` has no 1080p manifest, so the lookup is falsy
there and segment resolution returns `None`. -/
theorem c4_miss_implies_empty_witness :
    get_hls_segment_path ["/media/v1/720p/003.ts".data] vEx ("1080p".data)
      ("003.ts".data) = none :=
  c4_miss_implies_empty ["/media/v1/720p/003.ts".data] vEx ("1080p".data)
    ("003.ts".data) (by decide)

/-- C10: a manifest field that is present but falsy (empty `name`) makes
the lookup return that falsy value while the segment resolver returns
`None` for every segment file name.  The record — and with it the
field's `path` — is universally quantified, so the result never depends
on the path: it is not accessed. -/
theorem c10_falsy_manifest (fs : List Str) (v : Video) (r f : Str)
    (m : FieldFile) (hm : get_hls_manifest_by_resolution v r = some m)
    (hname : m.name = []) :
    pyTruthy (get_hls_manifest_by_resolution v r) = false ∧
    get_hls_segment_path fs v r f = none := by
  constructor
  · rw [hm]
    unfold pyTruthy
    simp [hname]
  · unfold get_hls_segment_path
    rw [hm]
    simp [hname]

/-- Witness for C10: `vEx`'s 480p manifest field is set to the empty
field value, whose `name` is empty. -/
theorem c10_falsy_manifest_witness :
    pyTruthy (get_hls_manifest_by_resolution vEx ("480p".data)) = false ∧
    get_hls_segment_path [] vEx ("480p".data) ("003.ts".data) = none :=
  c10_falsy_manifest [] vEx ("480p".data) ("003.ts".data) emptyField
    (by decide) (by decide)

/-- The hard-coded encoder binary path `FFMPEG_PATH`. -/
def FFMPEG_PATH : Str := "/usr/bin/ffmpeg".data

/-- Decimal rendering of a natural number, digit by digit (Python
`str(n)` / printf `%d`). -/
def natToDecAux (n : Nat) (acc : Str) : Str :=
  let d := Char.ofNat (48 + n % 10)
  if h : n < 10 then d :: acc
  else natToDecAux (n / 10) (d :: acc)
termination_by n
decreasing_by exact Nat.div_lt_self (by omega) (by omega)

/-- Decimal rendering of a natural number. -/
def natToDec (n : Nat) : Str := natToDecAux n []

/-- The f-string `f"scale=-2:{height}"` passed to the encoder. -/
def scaleArg (height : Nat) : Str := "scale=-2:".data ++ natToDec height

/-- Errors surfaced by the encoder wrappers: the re-raised
`subprocess.CalledProcessError`, and the distinct generic `Exception`
raised when the thumbnail tool reports success but the file is absent. -/
inductive ProcError where
  | calledProcessError (returncode : Nat)
  | thumbnailMissing (output_path : Str)
deriving DecidableEq

/-- The argument vector built by `utils.convert_video`. -/
def convert_video_command (input_path output_path : Str)
    (resolution : Nat) : List Str :=
  [FFMPEG_PATH,
   "-i".data, input_path,
   "-vf".data, scaleArg resolution,
   "-c:v".data, "libx264".data,
   "-crf".data, "23".data,
   "-preset".data, "fast".data,
   "-c:a".data, "aac".data,
   "-movflags".data, "+faststart".data,
   output_path]

/-- `utils.convert_video`: runs the encoder with `check=True`; a
non-zero exit becomes a `CalledProcessError`, a zero exit returns
normally.  The exit code of the spawned process is the explicit
`returncode` argument. -/
def convert_video (returncode : Nat) (input_path output_path : Str)
    (resolution : Nat) : Except ProcError Unit :=
  if returncode = 0 then Except.ok ()
  else Except.error (ProcError.calledProcessError returncode)

/-- The argument vector built by `utils.convert_video_to_hls`; index 18
is the value of `-hls_segment_filename` and index 19 the playlist
path. -/
def convert_video_to_hls_command (input_path output_dir : Str)
    (resolution : Nat) : List Str :=
  [FFMPEG_PATH,
   "-i".data, input_path,
   "-vf".data, scaleArg resolution,
   "-c:v".data, "libx264".data,
   "-crf".data, "23".data,
   "-preset".data, "fast".data,
   "-c:a".data, "aac".data,
   "-hls_time".data, "10".data,
   "-hls_list_size".data, "0".data,
   "-hls_segment_filename".data, pathJoin output_dir ("%03d.ts".data),
   pathJoin output_dir ("index.m3u8".data)]

/-- `utils.convert_video_to_hls`: runs the encoder with `check=True` and
returns the playlist path `os.path.join(output_dir, "index.m3u8")` on a
zero exit. -/
def convert_video_to_hls (returncode : Nat) (input_path output_dir : Str)
    (resolution : Nat) : Except ProcError Str :=
  let playlist_path := pathJoin output_dir ("index.m3u8".data)
  if returncode = 0 then Except.ok playlist_path
  else Except.error (ProcError.calledProcessError returncode)

/-- `utils.generate_thumbnail`: a non-zero exit re-raises the
`CalledProcessError`; on a zero exit the output path is checked against
the filesystem `fsAfter` as it is after the tool ran, and a generic
`Exception` is raised when the file is absent. -/
def generate_thumbnail (returncode : Nat) (fsAfter : List Str)
    (input_path output_path : Str) : Except ProcError Unit :=
  if returncode = 0 then
    if fsAfter.contains output_path then Except.ok ()
    else Except.error (ProcError.thumbnailMissing output_path)
  else Except.error (ProcError.calledProcessError returncode)

/-- printf semantics of the `%03d` pattern: the decimal digits of the
counter, left-padded with zeros to width 3. -/
def fmt03d (n : Nat) : Str :=
  let s := natToDec n
  List.replicate (3 - s.length) '0' ++ s

/-- Rendering of an encoder segment-name pattern at counter value `n`:
each occurrence of `%03d` is replaced by the padded counter. -/
def render03d : Str → Nat → Str
  | [], _ => []
  | '%' :: '0' :: '3' :: 'd' :: rest, n => fmt03d n ++ render03d rest n
  | c :: rest, n => c :: render03d rest n

/-- Digit count of `natToDecAux`: at most `k` digits are produced for
`n < 10 ^ k` (plus the accumulator), for `k ≥ 1`. -/
theorem natToDecAux_length_le (k : Nat) :
    ∀ n acc, n < 10 ^ k → 1 ≤ k →
      (natToDecAux n acc).length ≤ k + acc.length := by
  induction k with
  | zero => intro n acc _ hk; omega
  | succ k ih =>
    intro n acc hn _
    unfold natToDecAux
    by_cases h : n < 10
    · simp [h]
      omega
    · simp [h]
      have hk : 1 ≤ k := by
        by_contra hk
        have hk0 : k = 0 := by omega
        subst hk0
        simp at hn
        omega
      have hp : 10 ^ (k + 1) = 10 ^ k * 10 := Nat.pow_succ 10 k
      have hdiv : n / 10 < 10 ^ k := by omega
      have hrec := ih (n / 10) (Char.ofNat (48 + n % 10) :: acc) hdiv hk
      simp at hrec
      omega

/-- C6: both encode wrappers fail with the propagated process error
exactly on a non-zero exit, and complete without error on a zero
exit. -/
theorem c6_nonzero_exit (returncode : Nat) (i o d : Str) (res : Nat) :
    (returncode ≠ 0 →
      convert_video returncode i o res
          = Except.error (ProcError.calledProcessError returncode) ∧
      convert_video_to_hls returncode i d res
          = Except.error (ProcError.calledProcessError returncode)) ∧
    (returncode = 0 →
      convert_video returncode i o res = Except.ok () ∧
      convert_video_to_hls returncode i d res
          = Except.ok (pathJoin d ("index.m3u8".data))) := by
  constructor
  · intro h
    constructor <;> simp [convert_video, convert_video_to_hls, h]
  · intro h
    constructor <;> simp [convert_video, convert_video_to_hls, h]

/-- Witness for C6: exit code 1 fails, exit code 0 succeeds, at concrete
arguments. -/
theorem c6_nonzero_exit_witness :
    (convert_video 1 ("in.mp4".data) ("out.mp4".data) 480
        = Except.error (ProcError.calledProcessError 1) ∧
      convert_video_to_hls 1 ("in.mp4".data) ("/media/v1/480p".data) 480
        = Except.error (ProcError.calledProcessError 1)) ∧
    (convert_video 0 ("in.mp4".data) ("out.mp4".data) 480 = Except.ok () ∧
      convert_video_to_hls 0 ("in.mp4".data) ("/media/v1/480p".data) 480
        = Except.ok (pathJoin ("/media/v1/480p".data) ("index.m3u8".data))) :=
  ⟨(c6_nonzero_exit 1 ("in.mp4".data) ("out.mp4".data)
      ("/media/v1/480p".data) 480).1 (by decide),
   (c6_nonzero_exit 0 ("in.mp4".data) ("out.mp4".data)
      ("/media/v1/480p".data) 480).2 rfl⟩

/-- C5: on a zero exit with the output file absent the thumbnail wrapper
raises the missing-thumbnail error; on a non-zero exit it raises the
process error; the two errors are distinct values. -/
theorem c5_thumbnail_postcondition (returncode : Nat) (fs : List Str)
    (input_path output_path : Str) :
    (returncode = 0 → fs.contains output_path = false →
      generate_thumbnail returncode fs input_path output_path
          = Except.error (ProcError.thumbnailMissing output_path)) ∧
    (returncode ≠ 0 →
      generate_thumbnail returncode fs input_path output_path
          = Except.error (ProcError.calledProcessError returncode)) ∧
    (∀ rc : Nat,
      ProcError.thumbnailMissing output_path
        ≠ ProcError.calledProcessError rc) := by
  refine ⟨?_, ?_, ?_⟩
  · intro h0 habs
    unfold generate_thumbnail
    rw [if_pos h0, habs]
    simp
  · intro h
    simp [generate_thumbnail, h]
  · intro rc h
    exact ProcError.noConfusion h

/-- Witness for C5: exit 0 over an empty filesystem raises the
missing-thumbnail error; exit 1 raises the process error. -/
theorem c5_thumbnail_postcondition_witness :
    generate_thumbnail 0 [] ("in.mp4".data) ("thumb.jpg".data)
        = Except.error (ProcError.thumbnailMissing ("thumb.jpg".data)) ∧
    generate_thumbnail 1 [] ("in.mp4".data) ("thumb.jpg".data)
        = Except.error (ProcError.calledProcessError 1) :=
  ⟨(c5_thumbnail_postcondition 0 [] ("in.mp4".data) ("thumb.jpg".data)).1
      rfl (by decide),
   (c5_thumbnail_postcondition 1 [] ("in.mp4".data) ("thumb.jpg".data)).2.1
      (by decide)⟩

/-- C7: on success the segmented conversion returns
`output_dir/index.m3u8`; the command requests segment files under the
same output directory with the `%03d.ts` pattern, which renders at
counter `n` as the zero-padded (width 3 for `n < 1000`) decimal of `n`
followed by `.ts`. -/
theorem c7_hls_outputs (returncode : Nat) (input_path output_dir : Str)
    (res : Nat) (h0 : returncode = 0) :
    convert_video_to_hls returncode input_path output_dir res
        = Except.ok (pathJoin output_dir ("index.m3u8".data)) ∧
    (convert_video_to_hls_command input_path output_dir res).get? 18
        = some (pathJoin output_dir ("%03d.ts".data)) ∧
    (convert_video_to_hls_command input_path output_dir res).get? 19
        = some (pathJoin output_dir ("index.m3u8".data)) ∧
    (∀ n : Nat, render03d ("%03d.ts".data) n = fmt03d n ++ ".ts".data) ∧
    (∀ n : Nat, n < 1000 → (fmt03d n).length = 3) := by
  refine ⟨by simp [convert_video_to_hls, h0], rfl, rfl, ?_, ?_⟩
  · intro n
    rfl
  · intro n hn
    have hlen : (natToDec n).length ≤ 3 :=
      natToDecAux_length_le 3 n [] (by omega) (by omega)
    simp [fmt03d, natToDec] at *
    omega

/-- Witness for C7: concrete arguments with exit code 0, and the pattern
rendered at counters 7 and 999. -/
theorem c7_hls_outputs_witness :
    convert_video_to_hls 0 ("in.mp4".data) ("/media/v1/720p".data) 720
        = Except.ok (pathJoin ("/media/v1/720p".data) ("index.m3u8".data)) ∧
    render03d ("%03d.ts".data) 7 = fmt03d 7 ++ ".ts".data ∧
    (fmt03d 999).length = 3 :=
  ⟨(c7_hls_outputs 0 ("in.mp4".data) ("/media/v1/720p".data) 720 rfl).1,
   (c7_hls_outputs 0 ("in.mp4".data) ("/media/v1/720p".data) 720 rfl).2.2.2.1 7,
   (c7_hls_outputs 0 ("in.mp4".data) ("/media/v1/720p".data) 720 rfl).2.2.2.2
      999 (by decide)⟩

/-- C1: the code does not keep the joined path inside the manifest's
directory.  With the 720p manifest at `/media/v1/720p/index.m3u8`, the
segment file name `/etc/passwd` is absolute, so the join discards the
directory entirely; if `/etc/passwd` exists the resolver returns it,
although the manifest directory `/media/v1/720p` is not even a prefix of
the returned path. -/
theorem c1_traversal_escape :
    get_hls_segment_path ["/etc/passwd".data] vEx ("720p".data)
      ("/etc/passwd".data) = some ("/etc/passwd".data) ∧
    ("/media/v1/720p".data).isPrefixOf ("/etc/passwd".data) = false := by
  exact ⟨by decide, by decide⟩

/-- `VideoListSerializer.get_thumbnail_url`: with a falsy thumbnail
field the method skips to `return None`; with a truthy one it reads
`.url` inside a `try` whose `except (ValueError, OSError,
AttributeError)` clause returns `None`; a successful read is made
absolute against the request when one is in the serializer context. -/
def get_thumbnail_url (request : Option Str) (obj : Video) : Option Str :=
  if obj.thumbnail.name.isEmpty then none
  else
    match obj.thumbnail.access with
    | UrlAccess.raisesMissing => none
    | UrlAccess.ok url =>
      match request with
      | some base => some (base ++ url)
      | none => some url

/-- C8: a record whose thumbnail reference is set but whose `.url`
access raises a missing-file exception serializes to an absent
thumbnail URL, as does a record with no thumbnail reference; the method
is total — no exception escapes. -/
theorem c8_thumbnail_url (request : Option Str) (obj : Video) :
    (obj.thumbnail.access = UrlAccess.raisesMissing →
      get_thumbnail_url request obj = none) ∧
    (obj.thumbnail.name = [] → get_thumbnail_url request obj = none) := by
  constructor
  · intro h
    unfold get_thumbnail_url
    rw [h]
    by_cases hn : obj.thumbnail.name.isEmpty <;> simp [hn]
  · intro h
    unfold get_thumbnail_url
    simp [h]

/-- A record with a set thumbnail name whose file is missing from
storage. -/
def vThumbMissing : Video :=
  { vEx with thumbnail := { name := "thumbs/1.jpg".data
                            access := UrlAccess.raisesMissing } }

/-- Witness for C8: both hypotheses are satisfiable — a record with a
missing thumbnail file, and a record with no thumbnail at all. -/
theorem c8_thumbnail_url_witness :
    get_thumbnail_url (some ("http://h".data)) vThumbMissing = none ∧
    get_thumbnail_url (some ("http://h".data)) vEx = none :=
  ⟨(c8_thumbnail_url (some ("http://h".data)) vThumbMissing).1 (by decide),
   (c8_thumbnail_url (some ("http://h".data)) vEx).2 (by decide)⟩

/-- ASCII membership: `str.encode("ascii", "ignore")` keeps code points
below 128 and drops the rest. -/
def asciiB (c : Char) : Bool := c.toNat ≤ 127

/-- Python `str.lower()` on ASCII text: the letters A-Z shift down by 32
into a-z; every other character is unchanged. -/
def asciiLower (c : Char) : Char :=
  if 65 ≤ c.toNat ∧ c.toNat ≤ 90 then Char.ofNat (c.toNat + 32) else c

/-- The regex class `\w` over ASCII text: letters, digits, underscore. -/
def wordB (c : Char) : Bool :=
  (97 ≤ c.toNat && c.toNat ≤ 122) || (65 ≤ c.toNat && c.toNat ≤ 90) ||
  (48 ≤ c.toNat && c.toNat ≤ 57) || c.toNat == 95

/-- The regex class `\s` over ASCII text. -/
def spaceB (c : Char) : Bool :=
  c.toNat == 32 || c.toNat == 9 || c.toNat == 10 ||
  c.toNat == 11 || c.toNat == 12 || c.toNat == 13

/-- Characters surviving the deletion `re.sub(r"[^\w\s-]", "", ...)`. -/
def keepB (c : Char) : Bool := wordB c || spaceB c || c == '-'

/-- The class `[-\s]` whose runs are collapsed to a single hyphen. -/
def dashSpaceB (c : Char) : Bool := spaceB c || c == '-'

/-- Characters removed from the ends by `.strip("-_")`. -/
def stripB (c : Char) : Bool := c == '-' || c == '_'

/-- `re.sub(r"[-\s]+", "-", ...)`: a maximal run of dashes and
whitespace becomes one hyphen; the flag records being inside a run. -/
def collapseAux : Bool → Str → Str
  | _, [] => []
  | inRun, c :: rest =>
    if dashSpaceB c then
      if inRun then collapseAux true rest
      else '-' :: collapseAux true rest
    else c :: collapseAux false rest

/-- `re.sub(r"[-\s]+", "-", ...)` applied to a whole string. -/
def collapseDashSpace (l : Str) : Str := collapseAux false l

/-- Python `str.strip("-_")`: drop strip-class characters from both
ends. -/
def stripEnds (l : Str) : Str :=
  ((l.dropWhile stripB).reverse.dropWhile stripB).reverse

/-- `django.utils.text.slugify` with the default `allow_unicode=False`,
on text that the NFKD normalization leaves unchanged: non-ASCII code
points are dropped by the `ascii` encode, the text is lowercased,
characters outside `[\w\s-]` are deleted, runs of `[-\s]` become single
hyphens, and leading or trailing `-`/`_` are stripped. -/
def slugify (l : Str) : Str :=
  stripEnds (collapseDashSpace
    (List.filter keepB (List.map asciiLower (List.filter asciiB l))))

/-- `VideoListSerializer.get_slug`: `slugify(obj.title)`. -/
def get_slug (obj : Video) : Str := slugify obj.title

/-- Adjacent-character relation of a collapsed slug: no two neighbouring
hyphens. -/
def NDD (a b : Char) : Prop := ¬(a = '-' ∧ b = '-')

/-- `Char.ofNat` round-trips on code points below the surrogate range. -/
theorem char_toNat_ofNat (n : Nat) (h : n < 55296) :
    (Char.ofNat n).toNat = n := by
  unfold Char.ofNat
  rw [dif_pos (Or.inl h)]
  simp [Char.ofNatAux, Char.toNat, UInt32.toNat, BitVec.toNat_ofNatLt]

/-- Lowering an uppercase letter adds 32 to its code point. -/
theorem asciiLower_toNat_of_upper {c : Char}
    (h : 65 ≤ c.toNat ∧ c.toNat ≤ 90) :
    (asciiLower c).toNat = c.toNat + 32 := by
  unfold asciiLower
  rw [if_pos h]
  exact char_toNat_ofNat _ (by omega)

/-- Lowering fixes every character that is not an uppercase letter. -/
theorem asciiLower_of_not_upper {c : Char}
    (h : ¬(65 ≤ c.toNat ∧ c.toNat ≤ 90)) : asciiLower c = c := by
  unfold asciiLower
  rw [if_neg h]

/-- The result of lowering is never an uppercase letter. -/
theorem asciiLower_not_upper (c : Char) :
    ¬(65 ≤ (asciiLower c).toNat ∧ (asciiLower c).toNat ≤ 90) := by
  by_cases h : 65 ≤ c.toNat ∧ c.toNat ≤ 90
  · rw [asciiLower_toNat_of_upper h]
    omega
  · rw [asciiLower_of_not_upper h]
    exact h

/-- Lowering is idempotent. -/
theorem asciiLower_idem (c : Char) :
    asciiLower (asciiLower c) = asciiLower c :=
  asciiLower_of_not_upper (asciiLower_not_upper c)

/-- Lowering preserves being ASCII. -/
theorem asciiLower_ascii {c : Char} (h : asciiB c = true) :
    asciiB (asciiLower c) = true := by
  unfold asciiB at *
  by_cases hu : 65 ≤ c.toNat ∧ c.toNat ≤ 90
  · rw [asciiLower_toNat_of_upper hu]
    simp only [decide_eq_true_eq]
    omega
  · rw [asciiLower_of_not_upper hu]
    exact h

/-- Characters after the ASCII filter and lowercasing are ASCII and
fixed by further lowercasing. -/
theorem mem_lowered {c : Char} {l : Str}
    (h : c ∈ List.map asciiLower (List.filter asciiB l)) :
    asciiB c = true ∧ asciiLower c = c := by
  rcases List.mem_map.1 h with ⟨c0, hc0, rfl⟩
  exact ⟨asciiLower_ascii (List.of_mem_filter hc0), asciiLower_idem c0⟩

/-- Step equation: a collapsed-class character inside a run is
dropped. -/
theorem collapseAux_cons_dash_true {a : Char} (rest : Str)
    (h : dashSpaceB a = true) :
    collapseAux true (a :: rest) = collapseAux true rest := by
  simp [collapseAux, h]

/-- Step equation: a collapsed-class character outside a run emits one
hyphen and opens a run. -/
theorem collapseAux_cons_dash_false {a : Char} (rest : Str)
    (h : dashSpaceB a = true) :
    collapseAux false (a :: rest) = '-' :: collapseAux true rest := by
  simp [collapseAux, h]

/-- Step equation: any other character is emitted unchanged and closes
the run. -/
theorem collapseAux_cons_other {a : Char} (rest : Str) (b : Bool)
    (h : dashSpaceB a = false) :
    collapseAux b (a :: rest) = a :: collapseAux false rest := by
  cases b <;> simp [collapseAux, h]

/-- Every character emitted by the collapse pass is either the hyphen
or an input character outside the collapsed class. -/
theorem mem_collapseAux {c : Char} :
    ∀ (l : Str) (inRun : Bool), c ∈ collapseAux inRun l →
      c = '-' ∨ (c ∈ l ∧ dashSpaceB c = false) := by
  intro l
  induction l with
  | nil =>
    intro inRun h
    simp [collapseAux] at h
  | cons a rest ih =>
    intro inRun h
    by_cases hd : dashSpaceB a
    · cases inRun with
      | true =>
        simp only [collapseAux, hd, if_true] at h
        rcases ih true h with h' | ⟨hmem, hcl⟩
        · exact Or.inl h'
        · exact Or.inr ⟨List.mem_cons_of_mem a hmem, hcl⟩
      | false =>
        simp only [collapseAux, hd, if_true, if_false] at h
        rcases List.mem_cons.1 h with h' | h'
        · exact Or.inl h'
        · rcases ih true h' with h'' | ⟨hmem, hcl⟩
          · exact Or.inl h''
          · exact Or.inr ⟨List.mem_cons_of_mem a hmem, hcl⟩
    · simp only [collapseAux, hd, if_false] at h
      rcases List.mem_cons.1 h with h' | h'
      · subst h'
        exact Or.inr ⟨List.mem_cons_self c rest, by simpa using hd⟩
      · rcases ih false h' with h'' | ⟨hmem, hcl⟩
        · exact Or.inl h''
        · exact Or.inr ⟨List.mem_cons_of_mem a hmem, hcl⟩

/-- The stripped list is an infix of the original. -/
theorem stripEnds_isInf (l : Str) : stripEnds l <:+: l := by
  obtain ⟨s, hs⟩ := List.dropWhile_suffix (l := l) stripB
  obtain ⟨t, ht⟩ :=
    List.dropWhile_suffix (l := (List.dropWhile stripB l).reverse) stripB
  refine ⟨s, t.reverse, ?_⟩
  have ha : List.dropWhile stripB l = stripEnds l ++ t.reverse := by
    have := congrArg List.reverse ht
    simpa [stripEnds, List.reverse_append] using this.symm
  rw [List.append_assoc, ← ha, hs]

/-- Membership survives stripping. -/
theorem mem_stripEnds {c : Char} {l : Str} (h : c ∈ stripEnds l) :
    c ∈ l :=
  List.Sublist.mem h (List.IsInfix.sublist (stripEnds_isInf l))

/-- The first character the collapse pass emits while inside a run is
never in the collapsed class. -/
theorem collapseAux_head_true :
    ∀ {l : Str} {c : Char}, (collapseAux true l).head? = some c →
      dashSpaceB c = false := by
  intro l
  induction l with
  | nil =>
    intro c h
    simp [collapseAux] at h
  | cons a rest ih =>
    intro c h
    by_cases hd : dashSpaceB a
    · rw [collapseAux_cons_dash_true rest hd] at h
      exact ih h
    · rw [collapseAux_cons_other rest true (by simpa using hd)] at h
      simp only [List.head?_cons, Option.some.injEq] at h
      subst h
      simpa using hd

/-- The collapse pass never emits two adjacent hyphens. -/
theorem chain'_collapseAux (l : Str) :
    ∀ inRun, List.Chain' NDD (collapseAux inRun l) := by
  induction l with
  | nil =>
    intro inRun
    simp [collapseAux]
  | cons a rest ih =>
    intro inRun
    by_cases hd : dashSpaceB a
    · cases inRun with
      | true =>
        rw [collapseAux_cons_dash_true rest hd]
        exact ih true
      | false =>
        rw [collapseAux_cons_dash_false rest hd]
        rw [List.chain'_cons']
        refine ⟨?_, ih true⟩
        intro y hy hcontra
        have hyd : dashSpaceB y = false :=
          collapseAux_head_true (Option.mem_def.1 hy)
        rw [hcontra.2] at hyd
        simp [dashSpaceB] at hyd
    · rw [collapseAux_cons_other rest inRun (by simpa using hd)]
      rw [List.chain'_cons']
      refine ⟨?_, ih false⟩
      intro y hy hcontra
      rw [hcontra.1] at hd
      simp [dashSpaceB] at hd

/-- The head of a `dropWhile` fails the predicate. -/
theorem head_dropWhile_not {p : Char → Bool} :
    ∀ {l : Str} {c : Char}, (List.dropWhile p l).head? = some c →
      p c = false := by
  intro l
  induction l with
  | nil =>
    intro c h
    simp at h
  | cons a rest ih =>
    intro c h
    rw [List.dropWhile_cons] at h
    by_cases hp : p a
    · rw [if_pos hp] at h
      exact ih h
    · rw [if_neg hp] at h
      simp only [List.head?_cons, Option.some.injEq] at h
      subst h
      simpa using hp

/-- The last character of a stripped list is not strip-class. -/
theorem stripEnds_getLast_not {l : Str} {c : Char}
    (h : (stripEnds l).getLast? = some c) : stripB c = false := by
  unfold stripEnds at h
  rw [List.getLast?_reverse] at h
  exact head_dropWhile_not h

/-- The first character of a stripped list is not strip-class. -/
theorem stripEnds_head_not {l : Str} {c : Char}
    (h : (stripEnds l).head? = some c) : stripB c = false := by
  unfold stripEnds at h
  rw [List.head?_reverse] at h
  obtain ⟨t, ht⟩ :=
    List.dropWhile_suffix (l := (List.dropWhile stripB l).reverse) stripB
  have hne : List.dropWhile stripB (List.dropWhile stripB l).reverse ≠ [] := by
    intro he
    rw [he] at h
    simp at h
  have h2 : ((List.dropWhile stripB l).reverse).getLast? = some c := by
    rw [← ht, List.getLast?_append_of_ne_nil t hne]
    exact h
  rw [List.getLast?_reverse] at h2
  exact head_dropWhile_not h2

/-- `dropWhile` is the identity when the head fails the predicate. -/
theorem dropWhile_eq_self_of_head {p : Char → Bool} {l : Str}
    (h : ∀ c, l.head? = some c → p c = false) :
    List.dropWhile p l = l := by
  cases l with
  | nil => rfl
  | cons a rest =>
    rw [List.dropWhile_cons, h a rfl]
    simp

/-- Stripping is the identity when neither end is strip-class. -/
theorem stripEnds_eq_self {l : Str}
    (hh : ∀ c, l.head? = some c → stripB c = false)
    (hl : ∀ c, l.getLast? = some c → stripB c = false) :
    stripEnds l = l := by
  unfold stripEnds
  rw [dropWhile_eq_self_of_head hh]
  have h2 : ∀ c, l.reverse.head? = some c → stripB c = false := by
    intro c hc
    rw [List.head?_reverse] at hc
    exact hl c hc
  rw [dropWhile_eq_self_of_head h2, List.reverse_reverse]

/-- Collapsing is the identity on space-free text with no two adjacent
hyphens, provided no run is open at a leading hyphen. -/
theorem collapseAux_fixed :
    ∀ (l : Str), (∀ c ∈ l, spaceB c = false) → List.Chain' NDD l →
      ∀ (flag : Bool), (flag = true → ∀ c, l.head? = some c → c ≠ '-') →
        collapseAux flag l = l := by
  intro l
  induction l with
  | nil =>
    intro _ _ flag _
    rfl
  | cons a rest ih =>
    intro hns hch flag hflag
    have hsa : spaceB a = false := hns a (List.mem_cons_self a rest)
    have hcht : List.Chain' NDD rest := (List.chain'_cons'.1 hch).2
    by_cases hda : dashSpaceB a
    · have ha : a = '-' := by
        unfold dashSpaceB at hda
        rw [hsa] at hda
        simpa using hda
      cases flag with
      | true => exact absurd ha (hflag rfl a rfl)
      | false =>
        rw [collapseAux_cons_dash_false rest hda]
        have hrest : collapseAux true rest = rest := by
          apply ih (fun c hc => hns c (List.mem_cons_of_mem a hc)) hcht true
          intro _ c hc he
          have hR := (List.chain'_cons'.1 hch).1 c (Option.mem_def.2 hc)
          rw [ha] at hR
          exact hR ⟨rfl, he⟩
        rw [hrest, ha]
    · rw [collapseAux_cons_other rest flag (by simpa using hda)]
      rw [ih (fun c hc => hns c (List.mem_cons_of_mem a hc)) hcht false
        (fun h => nomatch h)]

/-- Every character of a slug is ASCII, fixed by lowering, keep-class,
and not whitespace. -/
theorem mem_slugify_props {c : Char} {l : Str} (h : c ∈ slugify l) :
    asciiB c = true ∧ asciiLower c = c ∧ keepB c = true ∧
      spaceB c = false := by
  unfold slugify at h
  have h1 := mem_stripEnds h
  unfold collapseDashSpace at h1
  rcases mem_collapseAux _ false h1 with hc | ⟨hmem, hcl⟩
  · subst hc
    exact ⟨by decide, by decide, by decide, by decide⟩
  · have hk : keepB c = true := List.of_mem_filter hmem
    have hml := mem_lowered (List.mem_of_mem_filter hmem)
    have hsp : spaceB c = false := by
      unfold dashSpaceB at hcl
      simp only [Bool.or_eq_false_iff] at hcl
      exact hcl.1
    exact ⟨hml.1, hml.2, hk, hsp⟩

/-- A slug has no two adjacent hyphens. -/
theorem chain'_slugify (l : Str) : List.Chain' NDD (slugify l) := by
  unfold slugify collapseDashSpace
  exact List.Chain'.infix (chain'_collapseAux _ false) (stripEnds_isInf _)

/-- The slug transform is idempotent. -/
theorem slugify_idem (l : Str) : slugify (slugify l) = slugify l := by
  have hprops : ∀ c ∈ slugify l,
      asciiB c = true ∧ asciiLower c = c ∧ keepB c = true ∧
        spaceB c = false :=
    fun c hc => mem_slugify_props hc
  have h1 : List.filter asciiB (slugify l) = slugify l :=
    List.filter_eq_self.2 (fun c hc => (hprops c hc).1)
  have h2 : List.map asciiLower (slugify l) = slugify l := by
    have hmi : List.map asciiLower (slugify l) = List.map id (slugify l) :=
      List.map_congr_left (fun c hc => (hprops c hc).2.1)
    rw [hmi, List.map_id]
  have h3 : List.filter keepB (slugify l) = slugify l :=
    List.filter_eq_self.2 (fun c hc => (hprops c hc).2.2.1)
  have h4 : collapseDashSpace (slugify l) = slugify l := by
    unfold collapseDashSpace
    exact collapseAux_fixed (slugify l)
      (fun c hc => (hprops c hc).2.2.2) (chain'_slugify l) false
      (fun h => nomatch h)
  have h5 : stripEnds (slugify l) = slugify l := by
    apply stripEnds_eq_self
    · intro c hc
      unfold slugify at hc
      exact stripEnds_head_not hc
    · intro c hc
      unfold slugify at hc
      exact stripEnds_getLast_not hc
  calc slugify (slugify l)
      = stripEnds (collapseDashSpace (List.filter keepB
          (List.map asciiLower (List.filter asciiB (slugify l))))) := rfl
    _ = slugify l := by rw [h1, h2, h3, h4, h5]

/-- C9: the slug is the lowercase-hyphenation transform of the title —
in particular the title `My Great Video!` yields `my-great-video` — and
reapplying the transform to a title already equal to a slug returns that
slug unchanged (idempotence). -/
theorem c9_slug_idempotent (obj : Video) :
    (obj.title = "My Great Video!".data →
      get_slug obj = "my-great-video".data) ∧
    (∀ o2 : Video, o2.title = get_slug obj →
      get_slug o2 = get_slug obj) := by
  constructor
  · intro h
    unfold get_slug
    rw [h]
    decide
  · intro o2 h2
    unfold get_slug at h2 ⊢
    rw [h2]
    exact slugify_idem obj.title

/-- A record whose title is already the slug of `vEx`'s title. -/
def vSlugged : Video := { vEx with title := "my-great-video".data }

/-- Witness for C9: both hypotheses are satisfiable — `vEx` has the
title of the spec's example, and `vSlugged` carries its slug as
title. -/
theorem c9_slug_idempotent_witness :
    get_slug vEx = "my-great-video".data ∧
    get_slug vSlugged = get_slug vEx :=
  ⟨(c9_slug_idempotent vEx).1 rfl,
   (c9_slug_idempotent vEx).2 vSlugged (by decide)⟩
